import Mathlib

set_option maxRecDepth 2000

/-
Verification of the Ogg Opus streaming decoder adapter (audio/decoders/opus.cpp).

The decoder itself is embedded faithfully from the source.  The external codec
library (opusfile) is reachable only through a narrow interface; it is modelled
as a scripted oracle whose op_read calls follow the documented contract of the
library: each call either reports a negative status code, reports end of stream
by returning zero, or delivers as many interleaved 16-bit values of the pending
decoded packet as fit in the space offered by the caller (a whole number of
frames, each frame being one value per channel).
-/

namespace Audio

/-- Number of 16-bit values in the fixed decode buffer of OpusStream:
120 ms at 48 kHz for 2 channels, as written in the source. -/
def bufferSize : Nat := 120 * 48 * 2

/-- Modulus of the unsigned 32-bit arithmetic of the samplesRead counter
in OpusStream fillBuffer (the counter has C type uint). -/
def U32 : Nat := 4294967296

/-- Value of a C int converted to a 32-bit unsigned integer. -/
def toU32 (i : Int) : Nat := (i % (U32 : Int)).toNat

/-- Status code of the opusfile library (external header): generic failure. -/
def OP_FALSE : Int := -1

/-- Status code of the opusfile library: hole in the data. -/
def OP_HOLE : Int := -3

/-- Status code of the opusfile library: an underlying read, seek or tell failed. -/
def OP_EREAD : Int := -128

/-- Status code of the opusfile library: internal fault. -/
def OP_EFAULT : Int := -129

/-- Status code of the opusfile library: unimplemented feature. -/
def OP_EIMPL : Int := -130

/-- Status code of the opusfile library: invalid argument. -/
def OP_EINVAL : Int := -131

/-- Status code of the opusfile library: not an Ogg Opus stream. -/
def OP_ENOTFORMAT : Int := -132

/-- Status code of the opusfile library: bad header. -/
def OP_EBADHEADER : Int := -133

/-- Status code of the opusfile library: unrecognized version. -/
def OP_EVERSION : Int := -134

/-- Status code of the opusfile library: not audio. -/
def OP_ENOTAUDIO : Int := -135

/-- Status code of the opusfile library: bad packet. -/
def OP_EBADPACKET : Int := -136

/-- Status code of the opusfile library: bad link. -/
def OP_EBADLINK : Int := -137

/-- Status code of the opusfile library: stream not seekable. -/
def OP_ENOSEEK : Int := -138

/-- Status code of the opusfile library: bad timestamp. -/
def OP_EBADTIMESTAMP : Int := -139

/-- The error translator opusError of the source: maps an opusfile status
code to a fixed descriptive string.  The switch statement of the source is
rendered as a chain of equality tests on the same constants. -/
def opusError (errnum : Int) : String :=
  if errnum = OP_FALSE then "Request did not succeed"
  else if errnum = OP_HOLE then "There was a hole in the data and some samples may have been skipped"
  else if errnum = OP_EREAD then "An underlying read, seek, or tell operation failed"
  else if errnum = OP_EFAULT then "Internal memory allocation or library error"
  else if errnum = OP_EIMPL then "Unimplemented feature used in stream"
  else if errnum = OP_EINVAL then "One or more parameters to a function were invalid"
  else if errnum = OP_ENOTFORMAT then "Invalid Ogg Opus stream"
  else if errnum = OP_EBADHEADER then "Invalid Ogg Opus stream"
  else if errnum = OP_EVERSION then "Unrecognized version number in header"
  else if errnum = OP_ENOTAUDIO then "Unknown error"
  else if errnum = OP_EBADPACKET then "Failed to decode audio packet"
  else if errnum = OP_EBADLINK then "Seeking error"
  else if errnum = OP_ENOSEEK then "Non-seekable stream"
  else if errnum = OP_EBADTIMESTAMP then "Validity checks failed for first or last timestamp in a link"
  else "Unknown error"

/-- One step of the scripted codec oracle: a call to op_read either reports a
negative status code, or has a decoded packet pending whose interleaved values
are delivered (possibly across several calls).  End of stream is the empty
script. -/
inductive OpRes where
  | err (code : Int)
  | chunk (d : List Int)
deriving DecidableEq

/-- Total number of interleaved sample values a codec script can deliver. -/
def scriptSamples : List OpRes → Nat
  | [] => 0
  | OpRes.err _ :: rest => scriptSamples rest
  | OpRes.chunk d :: rest => d.length + scriptSamples rest

/-- A codec script is good for channel count c when it reports no errors and
every pending packet is a nonempty whole number of frames (a multiple of c
values), which is what the opusfile library guarantees for a valid stream. -/
def goodScript (c : Nat) : List OpRes → Bool
  | [] => true
  | OpRes.err _ :: _ => false
  | OpRes.chunk d :: rest => (decide (0 < d.length) && decide (d.length % c = 0)) && goodScript c rest

/-- Modelled from the spec: the Timestamp type of the repository is not among
the shown sources.  Per the spec it is a dual representation of a time value
and a reference rate, enabling conversion between wall-clock time and frame
counts; the constructor used by the source takes milliseconds and a framerate. -/
structure Timestamp where
  msecs : Int
  framerate : Nat
deriving DecidableEq

/-- Modelled from the spec: the total number of frames of a Timestamp at its
reference rate (milliseconds times framerate divided by 1000). -/
def Timestamp.totalNumberOfFrames (t : Timestamp) : Int :=
  Int.tdiv (t.msecs * (t.framerate : Int)) 1000

/-- Modelled from the spec: convertTimeToStreamPos converts a time position to
a stream position at the given rate (doubled for stereo streams; the source
passes false for the stereo flag). -/
def convertTimeToStreamPos (t : Timestamp) (rate : Nat) (stereo : Bool) : Timestamp :=
  { msecs := t.msecs, framerate := rate * (if stereo then 2 else 1) }

/-- State of OpusStream: format fields fixed at open time, the codec handle
(modelled by the scripted decode results and scripted seek results), the fixed
decode buffer, and the cursor and one-past-end positions into it. -/
structure OpusStream where
  channels : Nat
  rate : Nat
  length : Timestamp
  script : List OpRes
  seekScript : List (Int × List OpRes)
  buf : List Int
  pos : Nat
  bufEnd : Nat
deriving DecidableEq

/-- The endOfData accessor of the source: the cursor has reached buffer end. -/
def OpusStream.endOfData (s : OpusStream) : Bool := decide (s.bufEnd ≤ s.pos)

/-- The isStereo accessor of the source: at least two channels. -/
def OpusStream.isStereo (s : OpusStream) : Bool := decide (2 ≤ s.channels)

/-- The getRate accessor of the source. -/
def OpusStream.getRate (s : OpusStream) : Nat := s.rate

/-- The getLength accessor of the source. -/
def OpusStream.getLength (s : OpusStream) : Timestamp := s.length

/-- One memcpy of d into buf at offset off, as op_read writes decoded values
into the decode buffer. -/
def writeAt (buf : List Int) (off : Nat) (d : List Int) : List Int :=
  buf.take off ++ d ++ buf.drop (off + d.length)

/-- Number of interleaved values one op_read call with channel count c
delivers from a pending packet of dlen values into a space of the given size:
as many whole frames as both the packet and the space allow. -/
def takeCount (c dlen space : Nat) : Nat := min (dlen / c) (space / c) * c

/-- The fill loop of OpusStream fillBuffer.  While samplesRead (sr, a 32-bit
unsigned counter) is below bufferSize, op_read is invoked with the remaining
space: a non-hole error aborts with failure; a hole adds the negative status
times the channel count to the unsigned counter (wrapping) and continues; a
zero return breaks; otherwise the delivered frames are written at offset sr
and sr advances by frames times channels.  The oracle delivers from the head
packet as many whole frames as fit in the offered space; a packet it could
deliver nothing of stays pending and the zero return ends the loop. -/
def fillLoop (c : Nat) : List OpRes → List Int → Nat → Bool × Nat × List Int × List OpRes
  | [], buf, sr => (true, sr, buf, [])
  | OpRes.err code :: rest, buf, sr =>
      if bufferSize ≤ sr then (true, sr, buf, OpRes.err code :: rest)
      else if code = OP_HOLE then
        fillLoop c rest buf ((sr + toU32 (OP_HOLE * (c : Int))) % U32)
      else (false, sr, buf, rest)
  | OpRes.chunk d :: rest, buf, sr =>
      if bufferSize ≤ sr then (true, sr, buf, OpRes.chunk d :: rest)
      else if takeCount c d.length (bufferSize - sr) = 0 then
        (true, sr, buf, OpRes.chunk d :: rest)
      else if takeCount c d.length (bufferSize - sr) < d.length then
        (true, (sr + takeCount c d.length (bufferSize - sr)) % U32,
         writeAt buf sr (d.take (takeCount c d.length (bufferSize - sr))),
         OpRes.chunk (d.drop (takeCount c d.length (bufferSize - sr))) :: rest)
      else
        fillLoop c rest
          (writeAt buf sr (d.take (takeCount c d.length (bufferSize - sr))))
          ((sr + takeCount c d.length (bufferSize - sr)) % U32)

/-- The fillBuffer method of OpusStream: run the fill loop from a counter of
zero; on success reset the cursor to the buffer start and the end to the
filled count; on failure set the cursor to the current buffer end (poisoning
the stream) and leave the end unchanged. -/
def OpusStream.fillBuffer (s : OpusStream) : Bool × OpusStream :=
  let r := fillLoop s.channels s.script s.buf 0
  if r.1 then
    (true, { s with script := r.2.2.2, buf := r.2.2.1, pos := 0, bufEnd := r.2.1 })
  else
    (false, { s with script := r.2.2.2, buf := r.2.2.1, pos := s.bufEnd })

/-- The loop of OpusStream readBuffer: while fewer than n samples are
delivered and the cursor is below buffer end, copy the next span, advance the
cursor and the count, and refill whenever the cursor reaches buffer end,
stopping on a failed refill.  Returns the count, the delivered values and the
final state. -/
def readLoop (n : Nat) (samples : Nat) (out : List Int) (s : OpusStream) :
    Nat × List Int × OpusStream :=
  if h : samples < n ∧ s.pos < s.bufEnd then
    let len := min (n - samples) (s.bufEnd - s.pos)
    let out2 := out ++ (s.buf.drop s.pos).take len
    let s2 : OpusStream := { s with pos := s.pos + len }
    if s2.bufEnd ≤ s2.pos then
      let r := s2.fillBuffer
      if r.1 then readLoop n (samples + len) out2 r.2
      else (samples + len, out2, r.2)
    else readLoop n (samples + len) out2 s2
  else (samples, out, s)
termination_by n - samples
decreasing_by
  · omega
  · omega

/-- The readBuffer method of OpusStream. -/
def OpusStream.readBuffer (s : OpusStream) (n : Nat) : Nat × List Int × OpusStream :=
  readLoop n 0 [] s

/-- The frame index handed to the codec seek call by OpusStream seek: the time
position converted to a stream position at getRate with the stereo flag false,
then its total number of frames. -/
def seekTarget (s : OpusStream) (w : Timestamp) : Int :=
  (convertTimeToStreamPos w s.getRate false).totalNumberOfFrames

/-- The scripted op_pcm_seek oracle: each codec seek consumes one scripted
outcome, a status code and, on success, the decode results from the new
position.  An empty seek script reports success and leaves decoding unchanged. -/
def op_pcm_seek (script : List OpRes) (sk : List (Int × List OpRes)) (_target : Int) :
    Int × List OpRes × List (Int × List OpRes) :=
  match sk with
  | [] => (0, script, [])
  | (code, ns) :: rest => (code, if code < 0 then script else ns, rest)

/-- The seek method of OpusStream: issue the codec frame seek at the converted
target; on a negative status set the cursor to buffer end and return false;
otherwise return the result of an immediate fillBuffer. -/
def OpusStream.seek (s : OpusStream) (w : Timestamp) : Bool × OpusStream :=
  let r := op_pcm_seek s.script s.seekScript (seekTarget s w)
  if r.1 < 0 then
    (false, { s with script := r.2.1, seekScript := r.2.2, pos := s.bufEnd })
  else
    ({ s with script := r.2.1, seekScript := r.2.2 } : OpusStream).fillBuffer

/-- The behaviour of the codec library on one byte source, as observed through
its narrow interface by the constructor: the status of op_open_callbacks, the
results of op_channel_count and op_pcm_total, and the scripted decode and seek
outcomes. -/
structure OpenSpec where
  openResult : Int
  channels : Nat
  pcmTotal : Int
  script : List OpRes
  seekScript : List (Int × List OpRes)
deriving DecidableEq

/-- The constructor state right after a successful open, before the first
fill: channel count recorded, rate fixed at 48000, cursor and buffer end at
their initial values (the buffer end starts at the array end).  The buffer is
uninitialized in the source and modelled as zeros. -/
def openedState (o : OpenSpec) : OpusStream :=
  { channels := o.channels, rate := 48000, length := { msecs := 0, framerate := 1000 },
    script := o.script, seekScript := o.seekScript,
    buf := List.replicate bufferSize 0, pos := 0, bufEnd := bufferSize }

/-- The OpusStream constructor: on open failure set the cursor to the array
end (the initial buffer end) and stop, the format fields never being assigned
(the source leaves them uninitialized; modelled as zero); on success record
the channel count, fix the rate at 48000, perform the first fill, and on a
successful fill compute the total length from the reported total frame count
with the integer arithmetic of the source (pcmTotal divided by the rate,
times 1000, at the rate). -/
def OpusStream.construct (o : OpenSpec) : OpusStream :=
  if o.openResult < 0 then
    { channels := 0, rate := 0, length := { msecs := 0, framerate := 1000 },
      script := o.script, seekScript := o.seekScript,
      buf := List.replicate bufferSize 0, pos := bufferSize, bufEnd := bufferSize }
  else
    let r := (openedState o).fillBuffer
    if r.1 then
      { r.2 with length := { msecs := Int.tdiv o.pcmTotal 48000 * 1000, framerate := 48000 } }
    else r.2

/-- The factory makeOpusStream: construct a stream and discard it when its
immediate post-construction state reports end of data. -/
def makeOpusStream (o : OpenSpec) : Option OpusStream :=
  let s := OpusStream.construct o
  if s.endOfData then none else some s

/-- Deliver a sequence of readBuffer calls, one per requested count, threading
the stream state; returns the cumulative delivered count and the final state. -/
def readMany (s : OpusStream) : List Nat → Nat × OpusStream
  | [] => (0, s)
  | n :: rest =>
      let r := s.readBuffer n
      let r2 := readMany r.2.2 rest
      (r.1 + r2.1, r2.2)

/-- Well-formedness of a decoder state as established by construction and
preserved by the operations: the cursor is within the valid region, the valid
region is within the buffer, the buffer has the fixed size, the channel count
is positive and at most the buffer size, and an exhausted cursor means the
codec script is also exhausted. -/
def wf (s : OpusStream) : Prop :=
  s.pos ≤ s.bufEnd ∧ s.bufEnd ≤ bufferSize ∧ s.buf.length = bufferSize ∧
  0 < s.channels ∧ s.channels ≤ bufferSize ∧
  (s.pos = s.bufEnd → scriptSamples s.script = 0)

instance (s : OpusStream) : Decidable (wf s) := by unfold wf; infer_instance

/-- Total number of sample values still deliverable from a state: the unread
part of the buffer plus everything the codec script can still decode. -/
def totalRemaining (s : OpusStream) : Nat :=
  (s.bufEnd - s.pos) + scriptSamples s.script

/-- Modelled from the spec: the abstract seekable byte source
(Common SeekableReadStream), whose implementation is not among the shown
sources.  Per the spec it is a randomly seekable sequence of bytes with read,
seek and tell operations. -/
structure ByteSource where
  data : List Nat
  pos : Nat
deriving DecidableEq

/-- Modelled from the spec: whence values follow the conventional
start, current, end encoding. -/
inductive Whence where
  | fromStart
  | fromCur
  | fromEnd
deriving DecidableEq

/-- Modelled from the spec: read n bytes from the current position, returning
the bytes actually read (possibly fewer, including zero at end of stream). -/
def ByteSource.readBytes (b : ByteSource) (n : Nat) : List Nat × ByteSource :=
  let d := (b.data.drop b.pos).take n
  (d, { b with pos := b.pos + d.length })

/-- Modelled from the spec: seek to offset relative to whence, reporting
success; on failure the position is unchanged. -/
def ByteSource.seekTo (b : ByteSource) (offset : Int) (w : Whence) : Bool × ByteSource :=
  let base : Int :=
    match w with
    | Whence.fromStart => 0
    | Whence.fromCur => (b.pos : Int)
    | Whence.fromEnd => (b.data.length : Int)
  let np := base + offset
  if 0 ≤ np ∧ np ≤ (b.data.length : Int) then (true, { b with pos := np.toNat })
  else (false, b)

/-- Modelled from the spec: the current byte offset. -/
def ByteSource.tell (b : ByteSource) : Nat := b.pos

/-- The read callback of the byte source adapter: forwards to the byte source
read and returns the number of bytes actually transferred. -/
def read_stream_callback (b : ByteSource) (nbytes : Nat) : Nat × List Nat × ByteSource :=
  let r := b.readBytes nbytes
  (r.1.length, r.1, r.2)

/-- The seek callback of the byte source adapter: forwards to the byte source
seek and returns 0 on success and -1 on failure. -/
def seek_stream_callback (b : ByteSource) (offset : Int) (w : Whence) : Int × ByteSource :=
  let r := b.seekTo offset w
  (if r.1 then 0 else -1, r.2)

/-- The tell callback of the byte source adapter: returns the current offset. -/
def tell_stream_callback (b : ByteSource) : Int := (b.tell : Int)

/-- The close callback of the byte source adapter: does nothing and returns 0;
the byte source is left to the OpusStream to free as appropriate. -/
def close_stream_callback (b : ByteSource) : Int × ByteSource := (0, b)

/-- Concrete input for the hole bug: a refill whose first decode call reports
a hole on a 2-channel stream, followed by a valid packet. -/
def sHole : OpusStream :=
  { channels := 2, rate := 48000, length := { msecs := 0, framerate := 48000 },
    script := [OpRes.err (-3), OpRes.chunk [1, 2, 3, 4]], seekScript := [],
    buf := [], pos := 0, bufEnd := 0 }

/-- Concrete input for the duration bug: a successfully opened 2-channel
source of 24000 total frames at 48 kHz, that is 500 ms of audio. -/
def src500ms : OpenSpec :=
  { openResult := 0, channels := 2, pcmTotal := 24000,
    script := [OpRes.chunk (List.replicate 48000 0)], seekScript := [] }

/-- Concrete well-formed stream state used by witnesses. -/
def sW : OpusStream :=
  { channels := 2, rate := 48000, length := { msecs := 0, framerate := 48000 },
    script := [OpRes.chunk [5, 6]], seekScript := [],
    buf := List.replicate bufferSize 0, pos := 0, bufEnd := 4 }

/-- Concrete stream whose next refill fails with a read error. -/
def sErr : OpusStream :=
  { channels := 2, rate := 48000, length := { msecs := 0, framerate := 48000 },
    script := [OpRes.err (-128)], seekScript := [],
    buf := [], pos := 3, bufEnd := 3 }

/-- Concrete exhausted stream state. -/
def sEod : OpusStream :=
  { channels := 2, rate := 48000, length := { msecs := 0, framerate := 48000 },
    script := [OpRes.chunk [1, 2]], seekScript := [],
    buf := [], pos := 0, bufEnd := 0 }

/-- Concrete codec behaviour for a short stream that opens successfully. -/
def demoOpen : OpenSpec :=
  { openResult := 0, channels := 2, pcmTotal := 2,
    script := [OpRes.chunk [7, 8]], seekScript := [] }

/-- Concrete stream whose next codec seek fails. -/
def sSeekF : OpusStream :=
  { channels := 2, rate := 48000, length := { msecs := 0, framerate := 48000 },
    script := [], seekScript := [(-1, [])],
    buf := [], pos := 0, bufEnd := 0 }

/-- Concrete stream whose next codec seek succeeds. -/
def sSeekS : OpusStream :=
  { channels := 2, rate := 48000, length := { msecs := 0, framerate := 48000 },
    script := [], seekScript := [(0, [OpRes.chunk [9, 9]])],
    buf := [], pos := 0, bufEnd := 0 }

/-- Concrete time position used by seek witnesses. -/
def tsW : Timestamp := { msecs := 250, framerate := 1000 }

/-- A write inside the buffer bounds preserves the buffer length. -/
lemma writeAt_length {buf d : List Int} {off : Nat} (h : off + d.length ≤ buf.length) :
    (writeAt buf off d).length = buf.length := by
  simp [writeAt]
  omega

/-- Unpacking goodScript at a pending packet. -/
lemma goodScript_cons {c : Nat} {d : List Int} {rest : List OpRes}
    (h : goodScript c (OpRes.chunk d :: rest) = true) :
    0 < d.length ∧ d.length % c = 0 ∧ goodScript c rest = true := by
  simp only [goodScript, Bool.and_eq_true, decide_eq_true_eq] at h
  exact ⟨h.1.1, h.1.2, h.2⟩

/-- The decode buffer is smaller than the unsigned 32-bit modulus. -/
lemma bufferSize_lt_U32 : bufferSize < U32 := by norm_num [bufferSize, U32]

/-- On a good script the fill loop always succeeds, stays inside the buffer,
keeps the script good, conserves the sample count, and makes progress whenever
samples are available and at least one frame fits. -/
lemma fillLoop_good {c : Nat} (hc : 0 < c) :
    ∀ (script : List OpRes) (buf : List Int) (sr : Nat),
      goodScript c script = true → sr ≤ bufferSize → buf.length = bufferSize →
      ∃ sr2 buf2 script2,
        fillLoop c script buf sr = (true, sr2, buf2, script2) ∧
        sr ≤ sr2 ∧ sr2 ≤ bufferSize ∧ buf2.length = bufferSize ∧
        goodScript c script2 = true ∧
        sr2 + scriptSamples script2 = sr + scriptSamples script ∧
        (0 < scriptSamples script → sr + c ≤ bufferSize → sr < sr2) := by
  intro script
  induction script with
  | nil =>
    intro buf sr hg hsr hbuf
    refine ⟨sr, buf, [], by simp [fillLoop], le_refl _, hsr, hbuf, by simp [goodScript], rfl, ?_⟩
    intro h
    simp [scriptSamples] at h
  | cons head rest ih =>
    cases head with
    | err code =>
      intro buf sr hg
      simp [goodScript] at hg
    | chunk d =>
      intro buf sr hg hsr hbuf
      obtain ⟨hd0, hdc, hgr⟩ := goodScript_cons hg
      have hdvd : c ∣ d.length := Nat.dvd_of_mod_eq_zero hdc
      have hdl : c ≤ d.length := Nat.le_of_dvd hd0 hdvd
      by_cases hfull : bufferSize ≤ sr
      · refine ⟨sr, buf, OpRes.chunk d :: rest, by simp [fillLoop, hfull], le_refl _, hsr,
          hbuf, hg, rfl, ?_⟩
        intro _ hck
        omega
      · have hd1 : 1 ≤ d.length / c := (Nat.one_le_div_iff hc).mpr hdl
        by_cases hn : takeCount c d.length (bufferSize - sr) = 0
        · have hmin : min (d.length / c) ((bufferSize - sr) / c) = 0 := by
            rcases Nat.mul_eq_zero.mp hn with h | h
            · exact h
            · omega
          have h2 : (bufferSize - sr) / c = 0 := by omega
          have h3 : bufferSize - sr < c := by
            have hdm := Nat.div_add_mod (bufferSize - sr) c
            rw [h2] at hdm
            have := Nat.mod_lt (bufferSize - sr) hc
            omega
          refine ⟨sr, buf, OpRes.chunk d :: rest, by simp [fillLoop, hfull, hn], le_refl _,
            hsr, hbuf, hg, rfl, ?_⟩
          intro _ hck
          omega
        · have hK0 : 0 < takeCount c d.length (bufferSize - sr) := Nat.pos_of_ne_zero hn
          have hkd : takeCount c d.length (bufferSize - sr) ≤ d.length :=
            le_trans (mul_le_mul_right' (min_le_left _ _) c) (Nat.div_mul_le_self _ c)
          have hkm : takeCount c d.length (bufferSize - sr) ≤ bufferSize - sr :=
            le_trans (mul_le_mul_right' (min_le_right _ _) c) (Nat.div_mul_le_self _ c)
          have hKdvd : c ∣ takeCount c d.length (bufferSize - sr) :=
            dvd_mul_left c _
          have hsrk : sr + takeCount c d.length (bufferSize - sr) ≤ bufferSize := by omega
          have hmod : (sr + takeCount c d.length (bufferSize - sr)) % U32 =
              sr + takeCount c d.length (bufferSize - sr) :=
            Nat.mod_eq_of_lt (by have := bufferSize_lt_U32; omega)
          have hbuf2 : (writeAt buf sr (d.take (takeCount c d.length (bufferSize - sr)))).length
              = bufferSize := by
            rw [writeAt_length]
            · exact hbuf
            · simp only [List.length_take]
              omega
          by_cases hpart : takeCount c d.length (bufferSize - sr) < d.length
          · refine ⟨(sr + takeCount c d.length (bufferSize - sr)) % U32,
              writeAt buf sr (d.take (takeCount c d.length (bufferSize - sr))),
              OpRes.chunk (d.drop (takeCount c d.length (bufferSize - sr))) :: rest,
              by simp [fillLoop, hfull, hn, hpart], by rw [hmod]; omega, by rw [hmod]; omega,
              hbuf2, ?_, ?_, ?_⟩
            · have hsub : c ∣ d.length - takeCount c d.length (bufferSize - sr) :=
                Nat.dvd_sub' hdvd hKdvd
              obtain ⟨t, ht⟩ := hsub
              simp only [goodScript, Bool.and_eq_true, decide_eq_true_eq, List.length_drop]
              refine ⟨⟨by omega, ?_⟩, hgr⟩
              rw [ht]
              exact Nat.mul_mod_right c t
            · simp only [scriptSamples, List.length_drop]
              rw [hmod]
              omega
            · intro _ _
              rw [hmod]
              omega
          · have hke : takeCount c d.length (bufferSize - sr) = d.length := by omega
            obtain ⟨sr2, buf2, script2, heq, hle, hsr2, hbuf3, hg2, hcons, _⟩ :=
              ih (writeAt buf sr (d.take (takeCount c d.length (bufferSize - sr))))
                ((sr + takeCount c d.length (bufferSize - sr)) % U32) hgr
                (by rw [hmod]; exact hsrk) hbuf2
            rw [hmod] at heq hle hcons
            refine ⟨sr2, buf2, script2, ?_, by omega, hsr2, hbuf3, hg2, ?_, ?_⟩
            · simp only [fillLoop, if_neg hfull, if_neg hn, if_neg hpart]
              rw [hmod]
              exact heq
            · simp only [scriptSamples]
              omega
            · intro _ _
              omega

/-- fillBuffer never changes the format fields or the seek script. -/
lemma fillBuffer_const (s : OpusStream) :
    s.fillBuffer.2.channels = s.channels ∧ s.fillBuffer.2.rate = s.rate ∧
    s.fillBuffer.2.length = s.length ∧ s.fillBuffer.2.seekScript = s.seekScript := by
  by_cases h : (fillLoop s.channels s.script s.buf 0).1 <;>
    simp [OpusStream.fillBuffer, h]

/-- On a well-formed state with a good script, fillBuffer succeeds, resets the
cursor to zero, keeps the state well-formed with a good script, moves the
script samples into the buffer, and yields a nonempty buffer whenever the
script had samples left. -/
lemma fillBuffer_good {s : OpusStream} (hg : goodScript s.channels s.script = true)
    (hbuf : s.buf.length = bufferSize) (hc : 0 < s.channels) (hcb : s.channels ≤ bufferSize) :
    s.fillBuffer.1 = true ∧ s.fillBuffer.2.pos = 0 ∧
    s.fillBuffer.2.bufEnd ≤ bufferSize ∧ s.fillBuffer.2.buf.length = bufferSize ∧
    s.fillBuffer.2.channels = s.channels ∧ s.fillBuffer.2.rate = s.rate ∧
    s.fillBuffer.2.length = s.length ∧ s.fillBuffer.2.seekScript = s.seekScript ∧
    goodScript s.channels s.fillBuffer.2.script = true ∧
    s.fillBuffer.2.bufEnd + scriptSamples s.fillBuffer.2.script = scriptSamples s.script ∧
    (0 < scriptSamples s.script → 0 < s.fillBuffer.2.bufEnd) := by
  obtain ⟨sr2, buf2, script2, heq, _, hsr2, hbuf2, hg2, hcons, hprog⟩ :=
    fillLoop_good hc s.script s.buf 0 hg (Nat.zero_le _) hbuf
  have hfb : s.fillBuffer =
      (true, { s with script := script2, buf := buf2, pos := 0, bufEnd := sr2 }) := by
    simp [OpusStream.fillBuffer, heq]
  rw [hfb]
  exact ⟨rfl, rfl, hsr2, hbuf2, rfl, rfl, rfl, rfl, hg2,
    show sr2 + scriptSamples script2 = scriptSamples s.script by omega,
    fun hp => hprog hp (by omega)⟩

/-- Under well-formedness, end of data holds exactly when nothing remains. -/
lemma wf_endOfData {s : OpusStream} (h : wf s) :
    (s.endOfData = true ↔ totalRemaining s = 0) := by
  obtain ⟨h1, _, _, _, _, h6⟩ := h
  simp only [OpusStream.endOfData, decide_eq_true_eq, totalRemaining]
  constructor
  · intro he
    have hpe : s.pos = s.bufEnd := le_antisymm h1 he
    have := h6 hpe
    omega
  · intro ht
    omega

/-- A read on an exhausted stream returns zero samples and leaves the whole
state unchanged, issuing no codec call. -/
lemma readBuffer_eod {s : OpusStream} (h : s.endOfData = true) (n : Nat) :
    s.readBuffer n = (0, [], s) := by
  simp only [OpusStream.endOfData, decide_eq_true_eq] at h
  rw [OpusStream.readBuffer, readLoop, dif_neg]
  omega

set_option maxHeartbeats 1600000 in
/-- Full specification of the read loop on well-formed states with good
scripts: it delivers exactly the requested count clipped to what remains, the
delivered values match the count one for one, well-formedness and goodness
are preserved, the remaining total decreases by the delivered count, and the
format fields are unchanged. -/
lemma readLoop_spec :
    ∀ (k n samples : Nat) (out : List Int) (s : OpusStream),
      n - samples ≤ k → wf s → goodScript s.channels s.script = true →
      (readLoop n samples out s).1 = samples + min (n - samples) (totalRemaining s) ∧
      (readLoop n samples out s).2.1.length
        = out.length + min (n - samples) (totalRemaining s) ∧
      wf (readLoop n samples out s).2.2 ∧
      goodScript (readLoop n samples out s).2.2.channels
        (readLoop n samples out s).2.2.script = true ∧
      totalRemaining (readLoop n samples out s).2.2
        = totalRemaining s - min (n - samples) (totalRemaining s) ∧
      (readLoop n samples out s).2.2.channels = s.channels ∧
      (readLoop n samples out s).2.2.rate = s.rate ∧
      (readLoop n samples out s).2.2.length = s.length := by
  intro k
  induction k with
  | zero =>
    intro n samples out s hk hwf hg
    have hcond : ¬ (samples < n ∧ s.pos < s.bufEnd) := by omega
    rw [readLoop, dif_neg hcond]
    exact ⟨show samples = samples + min (n - samples) (totalRemaining s) by omega,
      show out.length = out.length + min (n - samples) (totalRemaining s) by omega,
      hwf, hg,
      show totalRemaining s = totalRemaining s - min (n - samples) (totalRemaining s) by omega,
      rfl, rfl, rfl⟩
  | succ k ih =>
    intro n samples out s hk hwf hg
    by_cases hcond : samples < n ∧ s.pos < s.bufEnd
    · obtain ⟨hw1, hw2, hw3, hw4, hw5, hw6⟩ := hwf
      rw [readLoop]
      simp only [dif_pos hcond]
      set len := min (n - samples) (s.bufEnd - s.pos) with hlen
      have hlen1 : 1 ≤ len := by omega
      have hlenb : len ≤ s.bufEnd - s.pos := by omega
      have hout2 : (out ++ (s.buf.drop s.pos).take len).length = out.length + len := by
        simp only [List.length_append, List.length_take, List.length_drop]
        omega
      by_cases hA : s.bufEnd ≤ s.pos + len
      · rw [if_pos hA]
        have hleq : len = s.bufEnd - s.pos := by omega
        have hfb := fillBuffer_good
          (s := { s with pos := s.pos + len }) hg hw3 hw4 hw5
        obtain ⟨hf1, hf2, hf3, hf4, hf5, hf6, hf7, _, hf9, hf10, hf11⟩ := hfb
        dsimp only at hf2 hf3 hf4 hf5 hf6 hf7 hf9 hf10 hf11
        rw [if_pos hf1]
        have hwf3 : wf ({ s with pos := s.pos + len } : OpusStream).fillBuffer.2 := by
          refine ⟨by omega, hf3, hf4, by rw [hf5]; exact hw4, by rw [hf5]; exact hw5, ?_⟩
          intro hpe
          rw [hf2] at hpe
          have : scriptSamples s.script = 0 := by
            by_contra hne
            have := hf11 (by omega)
            omega
          omega
        have hg3 : goodScript ({ s with pos := s.pos + len } : OpusStream).fillBuffer.2.channels
            ({ s with pos := s.pos + len } : OpusStream).fillBuffer.2.script = true := by
          rw [hf5]
          exact hf9
        have htot3 : totalRemaining ({ s with pos := s.pos + len } : OpusStream).fillBuffer.2
            = scriptSamples s.script := by
          simp only [totalRemaining, hf2]
          omega
        obtain ⟨ih1, ih2, ih3, ih4, ih5, ih6, ih7, ih8⟩ :=
          ih n (samples + len) (out ++ (s.buf.drop s.pos).take len)
            (({ s with pos := s.pos + len } : OpusStream).fillBuffer.2)
            (by omega) hwf3 hg3
        rw [htot3] at ih1 ih2 ih5
        refine ⟨?_, ?_, ih3, ih4, ?_, ?_, ?_, ?_⟩
        · rw [ih1]
          simp only [totalRemaining]
          omega
        · rw [ih2, hout2]
          simp only [totalRemaining]
          omega
        · rw [ih5]
          simp only [totalRemaining]
          omega
        · rw [ih6, hf5]
        · rw [ih7, hf6]
        · rw [ih8, hf7]
      · rw [if_neg hA]
        have hwf2 : wf ({ s with pos := s.pos + len } : OpusStream) := by
          refine ⟨?_, hw2, hw3, hw4, hw5, ?_⟩
          · dsimp only
            omega
          · dsimp only
            intro hpe
            omega
        have hg2 : goodScript ({ s with pos := s.pos + len } : OpusStream).channels
            ({ s with pos := s.pos + len } : OpusStream).script = true := hg
        obtain ⟨ih1, ih2, ih3, ih4, ih5, ih6, ih7, ih8⟩ :=
          ih n (samples + len) (out ++ (s.buf.drop s.pos).take len)
            ({ s with pos := s.pos + len } : OpusStream) (by omega) hwf2 hg2
        have htot2 : totalRemaining ({ s with pos := s.pos + len } : OpusStream)
            = totalRemaining s - len := by
          simp only [totalRemaining]
          omega
        rw [htot2] at ih1 ih2 ih5
        refine ⟨?_, ?_, ih3, ih4, ?_, ih6, ih7, ih8⟩
        · rw [ih1]
          simp only [totalRemaining]
          omega
        · rw [ih2, hout2]
          simp only [totalRemaining]
          omega
        · simp only [totalRemaining] at ih5 ⊢
          omega
    · rw [readLoop, dif_neg hcond]
      obtain ⟨hw1, -, -, -, -, hw6⟩ := id hwf
      have hmin : min (n - samples) (totalRemaining s) = 0 := by
        rcases not_and_or.mp hcond with h | h
        · omega
        · have hpe : s.pos = s.bufEnd := by omega
          have := hw6 hpe
          simp only [totalRemaining]
          omega
      exact ⟨show samples = samples + min (n - samples) (totalRemaining s) by omega,
        show out.length = out.length + min (n - samples) (totalRemaining s) by omega,
        hwf, hg,
        show totalRemaining s = totalRemaining s - min (n - samples) (totalRemaining s) by omega,
        rfl, rfl, rfl⟩

/-- Per-call contract of readBuffer on well-formed states with good scripts. -/
lemma readBuffer_spec {s : OpusStream} (hwf : wf s)
    (hg : goodScript s.channels s.script = true) (n : Nat) :
    (s.readBuffer n).1 = min n (totalRemaining s) ∧
    (s.readBuffer n).2.1.length = min n (totalRemaining s) ∧
    wf (s.readBuffer n).2.2 ∧
    goodScript (s.readBuffer n).2.2.channels (s.readBuffer n).2.2.script = true ∧
    totalRemaining (s.readBuffer n).2.2 = totalRemaining s - min n (totalRemaining s) ∧
    (s.readBuffer n).2.2.channels = s.channels ∧
    (s.readBuffer n).2.2.rate = s.rate ∧
    (s.readBuffer n).2.2.length = s.length := by
  have h := readLoop_spec n n 0 [] s (by omega) hwf hg
  rw [OpusStream.readBuffer]
  simp only [Nat.sub_zero, Nat.zero_add, List.length_nil] at h
  exact h

/-- Cumulative contract of a sequence of reads: the total delivered is the
requested total clipped to what the stream holds, and the remainder shrinks
accordingly. -/
lemma readMany_spec :
    ∀ (reqs : List Nat) (s : OpusStream), wf s → goodScript s.channels s.script = true →
      (readMany s reqs).1 = min reqs.sum (totalRemaining s) ∧
      wf (readMany s reqs).2 ∧
      totalRemaining (readMany s reqs).2 = totalRemaining s - min reqs.sum (totalRemaining s) := by
  intro reqs
  induction reqs with
  | nil =>
    intro s hwf hg
    exact ⟨by simp [readMany], hwf, by simp [readMany]⟩
  | cons n rest ih =>
    intro s hwf hg
    obtain ⟨h1, _, h3, h4, h5, _, _, _⟩ := readBuffer_spec hwf hg n
    obtain ⟨m1, m2, m3⟩ := ih (s.readBuffer n).2.2 h3 h4
    rw [h5] at m1 m3
    refine ⟨?_, m2, ?_⟩
    · show (s.readBuffer n).1 + (readMany (s.readBuffer n).2.2 rest).1 = _
      rw [h1, m1]
      simp only [List.sum_cons]
      omega
    · show totalRemaining (readMany (s.readBuffer n).2.2 rest).2 = _
      rw [m3]
      simp only [List.sum_cons]
      omega

set_option maxHeartbeats 800000 in
/-- The read loop never changes the format fields, on any state at all. -/
lemma readLoop_const :
    ∀ (k n samples : Nat) (out : List Int) (s : OpusStream),
      n - samples ≤ k →
      (readLoop n samples out s).2.2.channels = s.channels ∧
      (readLoop n samples out s).2.2.rate = s.rate ∧
      (readLoop n samples out s).2.2.length = s.length := by
  intro k
  induction k with
  | zero =>
    intro n samples out s hk
    have hcond : ¬ (samples < n ∧ s.pos < s.bufEnd) := by omega
    rw [readLoop, dif_neg hcond]
    exact ⟨rfl, rfl, rfl⟩
  | succ k ih =>
    intro n samples out s hk
    by_cases hcond : samples < n ∧ s.pos < s.bufEnd
    · rw [readLoop]
      simp only [dif_pos hcond]
      set len := min (n - samples) (s.bufEnd - s.pos) with hlen
      have hlen1 : 1 ≤ len := by omega
      by_cases hA : s.bufEnd ≤ s.pos + len
      · rw [if_pos hA]
        have hfc := fillBuffer_const ({ s with pos := s.pos + len } : OpusStream)
        dsimp only at hfc
        by_cases hfill : ({ s with pos := s.pos + len } : OpusStream).fillBuffer.1 = true
        · rw [if_pos hfill]
          obtain ⟨c1, c2, c3⟩ := ih n (samples + len) (out ++ (s.buf.drop s.pos).take len)
            (({ s with pos := s.pos + len } : OpusStream).fillBuffer.2) (by omega)
          exact ⟨c1.trans hfc.1, c2.trans hfc.2.1, c3.trans hfc.2.2.1⟩
        · rw [if_neg hfill]
          exact ⟨hfc.1, hfc.2.1, hfc.2.2.1⟩
      · rw [if_neg hA]
        exact ih n (samples + len) (out ++ (s.buf.drop s.pos).take len)
          ({ s with pos := s.pos + len } : OpusStream) (by omega)
    · rw [readLoop, dif_neg hcond]
      exact ⟨rfl, rfl, rfl⟩

/-- The seek method never changes the format fields. -/
lemma seek_const (s : OpusStream) (w : Timestamp) :
    (s.seek w).2.channels = s.channels ∧ (s.seek w).2.rate = s.rate ∧
    (s.seek w).2.length = s.length := by
  simp only [OpusStream.seek]
  by_cases h : (op_pcm_seek s.script s.seekScript (seekTarget s w)).1 < 0
  · simp [if_pos h]
  · simp only [if_neg h]
    have hfc := fillBuffer_const
      { s with
          script := (op_pcm_seek s.script s.seekScript (seekTarget s w)).2.1,
          seekScript := (op_pcm_seek s.script s.seekScript (seekTarget s w)).2.2 }
    dsimp only at hfc
    exact ⟨hfc.1, hfc.2.1, hfc.2.2.1⟩

/-- A stream whose cursor is strictly below buffer end is not at end of data. -/
lemma endOfData_false_of_lt {s : OpusStream} (h : s.pos < s.bufEnd) : s.endOfData = false := by
  simp only [OpusStream.endOfData, decide_eq_false_iff_not]
  omega

/-- The sample count of a one-packet script is the packet length. -/
lemma scriptSamples_single (d : List Int) : scriptSamples [OpRes.chunk d] = d.length := by
  simp [scriptSamples]

/-- The fields of a successfully constructed stream: the length holds the
truncated duration computed by the source, and the cursor and buffer end are
those left by the first fill. -/
lemma construct_fields {o : OpenSpec} (hno : ¬ o.openResult < 0)
    (hf : (openedState o).fillBuffer.1 = true) :
    (OpusStream.construct o).getLength
        = { msecs := Int.tdiv o.pcmTotal 48000 * 1000, framerate := 48000 } ∧
    (OpusStream.construct o).pos = (openedState o).fillBuffer.2.pos ∧
    (OpusStream.construct o).bufEnd = (openedState o).fillBuffer.2.bufEnd := by
  rw [OpusStream.construct, if_neg hno]
  simp only [if_pos hf]
  refine ⟨?_, ?_, ?_⟩ <;> first | rfl | trivial

/-- Claim C1, evaluated at the failing input: with a 2-channel stream whose
refill first meets a hole and then a valid packet, the unsigned samplesRead
counter wraps, the fill loop stops without issuing the next decode call (the
packet is still pending in the codec script), reports success, and marks
4294967290 values as valid, far past the buffer, so subsequent reads deliver
garbage rather than decoded samples: the loop does not continue as claimed. -/
theorem claim_C1_eval :
    sHole.script = [OpRes.err OP_HOLE, OpRes.chunk [1, 2, 3, 4]] ∧
    sHole.fillBuffer.1 = true ∧
    sHole.fillBuffer.2.script = [OpRes.chunk [1, 2, 3, 4]] ∧
    sHole.fillBuffer.2.bufEnd = 4294967290 ∧
    bufferSize < sHole.fillBuffer.2.bufEnd := by
  refine ⟨by decide, by decide, by decide, by decide, by decide⟩

/-- Claim C2, evaluated at the failing input: a successfully opened 2-channel
source whose codec reports 24000 total frames at 48000 Hz, that is 500 ms of
audio, yields a total length of 0 milliseconds because the source divides the
frame count by the rate before multiplying by 1000, truncating the duration
down to whole seconds. -/
theorem claim_C2_eval :
    src500ms.pcmTotal = 24000 ∧
    (OpusStream.construct src500ms).getLength.msecs = 0 ∧
    (OpusStream.construct src500ms).getLength.framerate = 48000 ∧
    (OpusStream.construct src500ms).endOfData = false := by
  have hg : goodScript (openedState src500ms).channels (openedState src500ms).script = true := by
    show goodScript 2 [OpRes.chunk (List.replicate 48000 0)] = true
    simp only [goodScript, Bool.and_eq_true, decide_eq_true_eq]
    refine ⟨⟨?_, ?_⟩, trivial⟩
    · rw [List.length_replicate]
      norm_num
    · rw [List.length_replicate]
  have hbuf : (openedState src500ms).buf.length = bufferSize := by
    show (List.replicate bufferSize (0 : Int)).length = bufferSize
    rw [List.length_replicate]
  obtain ⟨hf1, hf2, _, _, _, _, _, _, _, _, hf11⟩ :=
    fillBuffer_good hg hbuf (by decide) (by decide)
  have hno : ¬ src500ms.openResult < 0 := by decide
  have hs : 0 < scriptSamples (openedState src500ms).script := by
    show 0 < scriptSamples [OpRes.chunk (List.replicate 48000 0)]
    rw [scriptSamples_single, List.length_replicate]
    norm_num
  obtain ⟨hL, hpos, hbufEnd⟩ := construct_fields hno hf1
  refine ⟨rfl, ?_, ?_, ?_⟩
  · rw [hL]
    decide
  · rw [hL]
  · exact endOfData_false_of_lt (by rw [hpos, hbufEnd]; have := hf11 hs; omega)

/-- Claim C3: on a valid stream every read delivers between 0 and the
requested count of samples, exactly as many as are copied out, namely the
request clipped to what remains; and across any sequence of reads the
cumulative count is the total that was decodable, with end of data reached
exactly when everything was delivered. -/
theorem claim_C3 :
    ∀ (s : OpusStream) (n : Nat) (reqs : List Nat),
      wf s → goodScript s.channels s.script = true →
      ((s.readBuffer n).1 ≤ n ∧
       (s.readBuffer n).2.1.length = (s.readBuffer n).1 ∧
       (s.readBuffer n).1 = min n (totalRemaining s)) ∧
      ((readMany s reqs).1 = min reqs.sum (totalRemaining s) ∧
       ((readMany s reqs).2.endOfData = true ↔ totalRemaining s ≤ reqs.sum)) := by
  intro s n reqs hwf hg
  obtain ⟨h1, h2, _, _, _, _, _, _⟩ := readBuffer_spec hwf hg n
  obtain ⟨m1, m2, m3⟩ := readMany_spec reqs s hwf hg
  refine ⟨⟨?_, ?_, h1⟩, m1, ?_⟩
  · rw [h1]
    omega
  · rw [h2, h1]
  · rw [wf_endOfData m2, m3]
    omega

/-- Witness for C3 at a concrete well-formed stream. -/
theorem claim_C3_witness :
    wf sW ∧ goodScript sW.channels sW.script = true ∧
    (sW.readBuffer 3).1 = min 3 (totalRemaining sW) := by
  have hb : sW.buf.length = bufferSize := by
    show (List.replicate bufferSize (0 : Int)).length = bufferSize
    rw [List.length_replicate]
  have hwf : wf sW :=
    ⟨by decide, by decide, hb, by decide, by decide, by decide⟩
  have hg : goodScript sW.channels sW.script = true := by decide
  exact ⟨hwf, hg, ((claim_C3 sW 3 [] hwf hg).1).2.2⟩

/-- Claim C4: end of data holds exactly when the cursor has reached buffer
end; a failed refill leaves the stream in that state; a read on an exhausted
stream changes nothing, so end of data never reverts without a seek; and a
successful open with nonzero content does not report end of data. -/
theorem claim_C4 :
    (∀ s : OpusStream, s.endOfData = true ↔ s.bufEnd ≤ s.pos) ∧
    (∀ s : OpusStream, s.fillBuffer.1 = false → s.fillBuffer.2.endOfData = true) ∧
    (∀ (s : OpusStream) (n : Nat), s.endOfData = true → s.readBuffer n = (0, [], s)) ∧
    (∀ o : OpenSpec, 0 ≤ o.openResult → goodScript o.channels o.script = true →
      0 < o.channels → o.channels ≤ bufferSize → 0 < scriptSamples o.script →
      (OpusStream.construct o).endOfData = false) := by
  refine ⟨?_, ?_, ?_, ?_⟩
  · intro s
    simp [OpusStream.endOfData]
  · intro s hf
    by_cases h : (fillLoop s.channels s.script s.buf 0).1
    · simp [OpusStream.fillBuffer, h] at hf
    · simp [OpusStream.fillBuffer, h, OpusStream.endOfData]
  · intro s nr h
    exact readBuffer_eod h nr
  · intro o ho hg hc hcb hs
    have hno : ¬ o.openResult < 0 := by omega
    obtain ⟨hf1, hf2, _, _, _, _, _, _, _, _, hf11⟩ :=
      fillBuffer_good (s := openedState o) hg
        (by show (List.replicate bufferSize (0 : Int)).length = bufferSize
            rw [List.length_replicate]) hc hcb
    obtain ⟨_, hpos, hbufEnd⟩ := construct_fields hno hf1
    exact endOfData_false_of_lt (by rw [hpos, hbufEnd]; have := hf11 hs; omega)

/-- Witness for C4 at concrete streams: a failing refill, an exhausted
stream, and a healthy open. -/
theorem claim_C4_witness :
    sErr.fillBuffer.1 = false ∧ sErr.fillBuffer.2.endOfData = true ∧
    sEod.endOfData = true ∧ sEod.readBuffer 5 = (0, [], sEod) ∧
    (OpusStream.construct demoOpen).endOfData = false :=
  ⟨by decide, claim_C4.2.1 sErr (by decide), by decide,
    claim_C4.2.2.1 sEod 5 (by decide),
    claim_C4.2.2.2 demoOpen (by decide) (by decide) (by decide) (by decide) (by decide)⟩

/-- Claim C5: the factory returns the failure signal exactly when the freshly
constructed decoder reports end of data, and otherwise hands the caller that
very decoder, alive. -/
theorem claim_C5 : ∀ o : OpenSpec,
    (makeOpusStream o = none ↔ (OpusStream.construct o).endOfData = true) ∧
    (∀ s, makeOpusStream o = some s → s = OpusStream.construct o ∧ s.endOfData = false) := by
  intro o
  by_cases h : (OpusStream.construct o).endOfData = true
  · constructor
    · simp [makeOpusStream, h]
    · intro s hs
      simp [makeOpusStream, h] at hs
  · have hfalse : (OpusStream.construct o).endOfData = false := by
      simp [Bool.eq_false_iff, h]
    constructor
    · simp [makeOpusStream, hfalse]
    · intro s hs
      simp [makeOpusStream, hfalse] at hs
      subst hs
      exact ⟨rfl, hfalse⟩

/-- Witness for C5: the factory hands back the live decoder of a healthy
source. -/
theorem claim_C5_witness :
    makeOpusStream demoOpen = some (OpusStream.construct demoOpen) ∧
    (OpusStream.construct demoOpen).endOfData = false := by
  have hg : goodScript (openedState demoOpen).channels (openedState demoOpen).script = true := by
    decide
  have hbuf : (openedState demoOpen).buf.length = bufferSize := by
    show (List.replicate bufferSize (0 : Int)).length = bufferSize
    rw [List.length_replicate]
  obtain ⟨hf1, hf2, _, _, _, _, _, _, _, _, hf11⟩ :=
    fillBuffer_good hg hbuf (by decide) (by decide)
  have hno : ¬ demoOpen.openResult < 0 := by decide
  obtain ⟨_, hpos, hbufEnd⟩ := construct_fields hno hf1
  have hs : 0 < scriptSamples (openedState demoOpen).script := by decide
  have heod : (OpusStream.construct demoOpen).endOfData = false :=
    endOfData_false_of_lt (by rw [hpos, hbufEnd]; have := hf11 hs; omega)
  have hsome : makeOpusStream demoOpen = some (OpusStream.construct demoOpen) := by
    rw [makeOpusStream]
    simp only [heod]
    rfl
  exact ⟨hsome, ((claim_C5 demoOpen).2 (OpusStream.construct demoOpen) hsome).2⟩

/-- Claim C6: seek converts the time position to a frame index at the
canonical rate, and on a failed codec seek poisons the stream (cursor at
buffer end, end of data) returning false, while on a successful codec seek
it returns exactly the result of an immediate refill from the new position. -/
theorem claim_C6 : ∀ (s : OpusStream) (w : Timestamp),
    seekTarget s w = Int.tdiv (w.msecs * (s.rate : Int)) 1000 ∧
    (∀ code ns rest, s.seekScript = (code, ns) :: rest → code < 0 →
      (s.seek w).1 = false ∧ (s.seek w).2.pos = (s.seek w).2.bufEnd ∧
      (s.seek w).2.endOfData = true) ∧
    (∀ code ns rest, s.seekScript = (code, ns) :: rest → 0 ≤ code →
      s.seek w = ({ s with script := ns, seekScript := rest } : OpusStream).fillBuffer) := by
  intro s w
  refine ⟨?_, ?_, ?_⟩
  · simp [seekTarget, convertTimeToStreamPos, Timestamp.totalNumberOfFrames,
      OpusStream.getRate]
  · intro code ns rest hsk hneg
    have hop : op_pcm_seek s.script s.seekScript (seekTarget s w) = (code, s.script, rest) := by
      rw [hsk]
      simp [op_pcm_seek, if_pos hneg]
    simp only [OpusStream.seek, hop]
    rw [if_pos hneg]
    exact ⟨rfl, rfl, by simp [OpusStream.endOfData]⟩
  · intro code ns rest hsk hge
    have hop : op_pcm_seek s.script s.seekScript (seekTarget s w) = (code, ns, rest) := by
      rw [hsk]
      simp [op_pcm_seek, if_neg (not_lt.mpr hge)]
    simp only [OpusStream.seek, hop]
    rw [if_neg (not_lt.mpr hge)]

/-- Witness for C6 at concrete seeks, one failing and one succeeding. -/
theorem claim_C6_witness :
    (sSeekF.seek tsW).1 = false ∧ (sSeekF.seek tsW).2.endOfData = true ∧
    sSeekS.seek tsW
      = ({ sSeekS with script := [OpRes.chunk [9, 9]], seekScript := [] } : OpusStream).fillBuffer :=
  ⟨((claim_C6 sSeekF tsW).2.1 (-1) [] [] rfl (by decide)).1,
    ((claim_C6 sSeekF tsW).2.1 (-1) [] [] rfl (by decide)).2.2,
    (claim_C6 sSeekS tsW).2.2 0 [OpRes.chunk [9, 9]] [] rfl (by decide)⟩

/-- Claim C7: the channel count and rate reported by the accessors are
unchanged by reads and seeks, and a successful open fixes the rate at the
canonical 48000 and the channel count at the value the codec reported. -/
theorem claim_C7 :
    (∀ (s : OpusStream) (n : Nat),
      (s.readBuffer n).2.2.channels = s.channels ∧ (s.readBuffer n).2.2.rate = s.rate ∧
      (s.readBuffer n).2.2.isStereo = s.isStereo ∧ (s.readBuffer n).2.2.getRate = s.getRate) ∧
    (∀ (s : OpusStream) (w : Timestamp),
      (s.seek w).2.channels = s.channels ∧ (s.seek w).2.rate = s.rate ∧
      (s.seek w).2.isStereo = s.isStereo ∧ (s.seek w).2.getRate = s.getRate) ∧
    (∀ o : OpenSpec, 0 ≤ o.openResult →
      (OpusStream.construct o).rate = 48000 ∧ (OpusStream.construct o).getRate = 48000 ∧
      (OpusStream.construct o).channels = o.channels) := by
  refine ⟨?_, ?_, ?_⟩
  · intro s n
    obtain ⟨c1, c2, _⟩ := readLoop_const n n 0 [] s (by omega)
    exact ⟨c1, c2, by simp only [OpusStream.isStereo, OpusStream.readBuffer, c1],
      by simp only [OpusStream.getRate, OpusStream.readBuffer, c2]⟩
  · intro s w
    obtain ⟨c1, c2, _⟩ := seek_const s w
    exact ⟨c1, c2, by simp only [OpusStream.isStereo, c1],
      by simp only [OpusStream.getRate, c2]⟩
  · intro o ho
    have hno : ¬ o.openResult < 0 := by omega
    have hfc := fillBuffer_const (openedState o)
    rw [OpusStream.construct, if_neg hno]
    by_cases hr : (openedState o).fillBuffer.1 = true
    · simp only [if_pos hr]
      refine ⟨?_, ?_, ?_⟩
      · exact hfc.2.1
      · exact hfc.2.1
      · exact hfc.1
    · simp only [if_neg hr]
      exact ⟨hfc.2.1, hfc.2.1, hfc.1⟩

/-- Witness for C7 at a concrete open. -/
theorem claim_C7_witness :
    (0 : Int) ≤ demoOpen.openResult ∧ (OpusStream.construct demoOpen).getRate = 48000 :=
  ⟨by decide, (claim_C7.2.2 demoOpen (by decide)).2.1⟩

/-- Claim C8: the error translator is a pure total function mapping each of
the fourteen listed status codes to its fixed string and every other code to
the fixed unknown string. -/
theorem claim_C8 :
    (opusError OP_FALSE = "Request did not succeed" ∧
     opusError OP_HOLE = "There was a hole in the data and some samples may have been skipped" ∧
     opusError OP_EREAD = "An underlying read, seek, or tell operation failed" ∧
     opusError OP_EFAULT = "Internal memory allocation or library error" ∧
     opusError OP_EIMPL = "Unimplemented feature used in stream" ∧
     opusError OP_EINVAL = "One or more parameters to a function were invalid" ∧
     opusError OP_ENOTFORMAT = "Invalid Ogg Opus stream" ∧
     opusError OP_EBADHEADER = "Invalid Ogg Opus stream" ∧
     opusError OP_EVERSION = "Unrecognized version number in header" ∧
     opusError OP_ENOTAUDIO = "Unknown error" ∧
     opusError OP_EBADPACKET = "Failed to decode audio packet" ∧
     opusError OP_EBADLINK = "Seeking error" ∧
     opusError OP_ENOSEEK = "Non-seekable stream" ∧
     opusError OP_EBADTIMESTAMP
       = "Validity checks failed for first or last timestamp in a link") ∧
    (∀ n : Int,
      n ∉ ([ OP_FALSE, OP_HOLE, OP_EREAD, OP_EFAULT, OP_EIMPL, OP_EINVAL, OP_ENOTFORMAT,
        OP_EBADHEADER, OP_EVERSION, OP_ENOTAUDIO, OP_EBADPACKET, OP_EBADLINK, OP_ENOSEEK,
        OP_EBADTIMESTAMP ] : List Int) → opusError n = "Unknown error") := by
  constructor
  · exact ⟨rfl, rfl, rfl, rfl, rfl, rfl, rfl, rfl, rfl, rfl, rfl, rfl, rfl, rfl⟩
  · intro n hn
    simp only [List.mem_cons, List.not_mem_nil, or_false, not_or] at hn
    obtain ⟨e1, e2, e3, e4, e5, e6, e7, e8, e9, e10, e11, e12, e13, e14⟩ := hn
    simp [opusError, e1, e2, e3, e4, e5, e6, e7, e8, e9, e10, e11, e12, e13, e14]

/-- Witness for C8: an unlisted code maps to the unknown string. -/
theorem claim_C8_witness :
    (42 : Int) ∉ ([ OP_FALSE, OP_HOLE, OP_EREAD, OP_EFAULT, OP_EIMPL, OP_EINVAL, OP_ENOTFORMAT,
      OP_EBADHEADER, OP_EVERSION, OP_ENOTAUDIO, OP_EBADPACKET, OP_EBADLINK, OP_ENOSEEK,
      OP_EBADTIMESTAMP ] : List Int) ∧ opusError 42 = "Unknown error" :=
  ⟨by decide, claim_C8.2 42 (by decide)⟩

/-- Claim C9: each byte source adapter callback forwards to the corresponding
byte source operation: read hands back the bytes actually transferred and
their count, seek returns 0 on success and -1 on failure, tell returns the
current offset, and close leaves the byte source untouched. -/
theorem claim_C9 : ∀ (b : ByteSource) (nbytes : Nat) (offset : Int) (w : Whence),
    ((read_stream_callback b nbytes).1 = (b.readBytes nbytes).1.length ∧
     (read_stream_callback b nbytes).1 ≤ nbytes ∧
     (read_stream_callback b nbytes).2.1 = (b.readBytes nbytes).1 ∧
     (read_stream_callback b nbytes).2.2 = (b.readBytes nbytes).2) ∧
    ((seek_stream_callback b offset w).1 = (if (b.seekTo offset w).1 then 0 else -1) ∧
     (seek_stream_callback b offset w).2 = (b.seekTo offset w).2) ∧
    tell_stream_callback b = (b.tell : Int) ∧
    close_stream_callback b = (0, b) := by
  intro b nbytes offset w
  refine ⟨⟨rfl, ?_, rfl, rfl⟩, ⟨rfl, rfl⟩, rfl, rfl⟩
  simp only [read_stream_callback, ByteSource.readBytes, List.length_take]
  omega

/-- Claim C10: a read issued while end of data already holds returns zero
samples, delivers nothing, and leaves the entire decoder state unchanged. -/
theorem claim_C10 : ∀ (s : OpusStream) (n : Nat), s.endOfData = true →
    s.readBuffer n = (0, [], s) :=
  fun _ n h => readBuffer_eod h n

/-- Witness for C10 at a concrete exhausted stream. -/
theorem claim_C10_witness : sEod.endOfData = true ∧ sEod.readBuffer 7 = (0, [], sEod) :=
  ⟨by decide, claim_C10 sEod 7 (by decide)⟩

end Audio
